import Mathlib

/-!
# Verification of the key-whisper-network mailbox backend

Shallow embedding of `src/backend/src/main.rs`: a store-and-forward mailbox
over a transactional key-value store (fjall).  Byte strings (`String` /
`&[u8]` in Rust) are modelled as `List Nat`; `chrono::DateTime<Utc>` is
modelled as `Int` nanoseconds since the epoch (chrono stores nanosecond
precision; `timestamp_millis()` floor-divides to milliseconds); the
"messages" partition is an association list from storage-key bytes to stored
values.  Serialized record bytes are modelled abstractly: a stored value is
either bytes that deserialize to a `MessageRecord` (`StoredVal.record`) or bytes
that fail to deserialize (`StoredVal.corrupt`), reflecting the serde_json
round-trip.  Engine-level read faults during a prefix scan are modelled by a
predicate `fault` marking the keys whose read yields an `fjall::Error`.
-/

namespace KeyWhisper

/-- One millisecond is 1000000 nanoseconds. -/
def nsPerMs : Int := 1000000

/-- `chrono::DateTime::timestamp_millis`: floor division of the nanosecond
timestamp by 10^6 (chrono returns the floor for pre-epoch times as well). -/
def timestampMillis (t : Int) : Int := Int.fdiv t nsPerMs

/-- Big-endian byte string of length `k` for a natural number (most
significant byte first), as produced by `to_be_bytes` on the unsigned
reinterpretation. -/
def beBytes : Nat → Nat → List Nat
  | 0, _ => []
  | k + 1, n => beBytes k (n / 256) ++ [n % 256]

/-- `i64::to_be_bytes`: the 8 bytes of the two's-complement representation,
big-endian. -/
def i64BeBytes (m : Int) : List Nat :=
  beBytes 8 (m % (18446744073709551616 : Int)).toNat

/-- The record stored in the "messages" partition
(`MessageRecord { message, timestamp }` in the source). -/
structure MessageRecord where
  message : List Nat
  timestamp : Int
  deriving DecidableEq, Repr

/-- A value held in the "messages" partition: bytes that either deserialize
back to the `MessageRecord` they encode, or corrupt bytes on which
`serde_json::from_slice` fails. -/
inductive StoredVal where
  | record (r : MessageRecord)
  | corrupt (blob : List Nat)
  deriving DecidableEq, Repr

/-- The "messages" partition: association list from storage-key bytes to
stored values (fjall keeps one value per key; `insert` overwrites). -/
abbrev Store := List (List Nat × StoredVal)

/-- fjall `get`-style lookup: the value under a key, if present. -/
def lookupKV {α : Type} (k : List Nat) : List (List Nat × α) → Option α
  | [] => none
  | (k', v) :: rest => if k' = k then some v else lookupKV k rest

/-- fjall `insert`: overwrite the value under the key if it exists,
otherwise add the pair. -/
def insertKV {α : Type} (k : List Nat) (v : α) : List (List Nat × α) → List (List Nat × α)
  | [] => [(k, v)]
  | (k', v') :: rest => if k' = k then (k, v) :: rest else (k', v') :: insertKV k v rest

/-- fjall `remove` / `write_tx.remove`: delete the entry under the key;
deleting an absent key is a no-op. -/
def removeKV {α : Type} (k : List Nat) : List (List Nat × α) → List (List Nat × α)
  | [] => []
  | (k', v) :: rest => if k' = k then removeKV k rest else (k', v) :: removeKV k rest

/-- Which branch of the Put size check produced the `PayloadTooLarge`
detail string. -/
inductive SizeDetail where
  | messageIdField
  | messageField
  deriving DecidableEq, Repr

/-- The backend's error enum `AppError` (the `String` payloads of the source
are abstracted; `PayloadTooLarge` keeps which check fired, since the two
branches format different messages). -/
inductive AppError where
  | Fjall
  | SerdeJson
  | PayloadTooLarge (detail : SizeDetail)
  | WebPush
  deriving DecidableEq, Repr

/-- `PutMessageRequest { message_id, message }`; Rust `String.len()` is the
byte length, so both fields are byte lists. -/
structure PutMessageRequest where
  message_id : List Nat
  message : List Nat
  deriving DecidableEq, Repr

/-- `AckMessageRequest { message_id, timestamp }`. -/
structure AckMessageRequest where
  message_id : List Nat
  timestamp : Int
  deriving DecidableEq, Repr

/-- `SubscriptionKeysInfo { p256dh, auth }`. -/
structure SubscriptionKeysInfo where
  p256dh : List Nat
  auth : List Nat
  deriving DecidableEq, Repr

/-- `PushSubscriptionInfo { endpoint, keys }`. -/
structure PushSubscriptionInfo where
  endpoint : List Nat
  keys : SubscriptionKeysInfo
  deriving DecidableEq, Repr

/-- `GetMessagesRequest { message_ids, timeout_ms, push_subscription }`. -/
structure GetMessagesRequest where
  message_ids : List (List Nat)
  timeout_ms : Option Nat
  push_subscription : Option PushSubscriptionInfo
  deriving DecidableEq, Repr

/-- `FoundMessage { message_id, message, timestamp }` returned by Get. -/
structure FoundMessage where
  message_id : List Nat
  message : List Nat
  timestamp : Int
  deriving DecidableEq, Repr

/-- The two partitions of the transactional keyspace:
`messages[message_id || be64(millis)] = record` and
`subscriptions[message_id] = subscription blob` (the blob is kept as the
structure it serializes, since no claim inspects its bytes). -/
structure DB where
  messages : Store
  subscriptions : List (List Nat × PushSubscriptionInfo)
  deriving DecidableEq, Repr

/-- The storage key built by `put_message_handler` (main.rs lines 165-167):
`message_id` bytes followed by the big-endian bytes of
`timestamp.timestamp_millis()`. -/
def putKeyBytes (message_id : List Nat) (t : Int) : List Nat :=
  message_id ++ i64BeBytes (timestampMillis t)

/-- The storage key reconstructed by `ack_messages_handler` (main.rs lines
223-225), duplicating the construction of `put_message_handler`. -/
def ackKeyBytes (message_id : List Nat) (t : Int) : List Nat :=
  message_id ++ i64BeBytes (timestampMillis t)

/-- `put_message_handler`, with the wall clock passed explicitly as the
nanosecond instant `now`.  On success it returns the updated messages
partition, the `message_id` whose waiters are notified (`notify_waiters` on
the upgraded map entry), and status 201 CREATED.  The size checks run before
any storage access; an early error therefore leaves the store untouched, as
the `Except` shape records. -/
def put_message_handler (payload : PutMessageRequest) (now : Int) (s : Store) :
    Except AppError (Store × List Nat × Nat) :=
  if 100 < payload.message_id.length then
    .error (.PayloadTooLarge .messageIdField)
  else if 2048 < payload.message.length then
    .error (.PayloadTooLarge .messageField)
  else
    let record : MessageRecord := { message := payload.message, timestamp := now }
    let key_bytes := putKeyBytes payload.message_id now
    .ok (insertKV key_bytes (.record record) s, payload.message_id, 201)

/-- The messages partition after a Put request (unchanged when the handler
errors before any insert). -/
def putStore (payload : PutMessageRequest) (now : Int) (s : Store) : Store :=
  match put_message_handler payload now s with
  | .ok (s', _, _) => s'
  | .error _ => s

/-- The `message_id` whose waiters a Put request notifies, `none` when the
handler returns early with an error (the notify code is only reached after
the insert succeeds). -/
def putNotify (payload : PutMessageRequest) (now : Int) (s : Store) : Option (List Nat) :=
  match put_message_handler payload now s with
  | .ok (_, n, _) => some n
  | .error _ => none

/-- `ack_messages_handler`: an empty batch returns 200 OK before opening the
partition; otherwise every reconstructed key is removed inside one
transaction (`write_tx` ... `commit`) and 200 OK is returned.  Storage-engine
commit failures are outside the model (the engine is assumed correct). -/
def ack_messages_handler (acks : List AckMessageRequest) (s : Store) : Nat × Store :=
  if acks.isEmpty then
    (200, s)
  else
    (200, acks.foldl (fun st a => removeKV (ackKeyBytes a.message_id a.timestamp) st) s)

/-- One prefix scan of `get_messages_handler` for a single requested
`message_id` (main.rs lines 314-358): iterate over every stored entry whose
key starts with the raw `message_id` bytes; a read fault on an entry returns
`AppError::Fjall` for the whole request, a value that fails to deserialize
returns `AppError::SerdeJson` for the whole request; otherwise the record is
collected as a `FoundMessage` labeled with the requested id. -/
def scanKey (fault : List Nat → Bool) (id : List Nat) : Store → Except AppError (List FoundMessage)
  | [] => .ok []
  | (k, v) :: rest =>
    if id.isPrefixOf k then
      if fault k then .error .Fjall
      else
        match v with
        | .record r =>
          match scanKey fault id rest with
          | .ok ys => .ok ({ message_id := id, message := r.message, timestamp := r.timestamp } :: ys)
          | .error e => .error e
        | .corrupt _ => .error .SerdeJson
    else scanKey fault id rest

/-- One full storage pass of the Get loop: the per-id scans, in request
order, accumulated into one result list; the first error aborts the whole
pass (the handler returns `Err` from inside the loop). -/
def scanOnce (fault : List Nat → Bool) : List (List Nat) → Store → Except AppError (List FoundMessage)
  | [], _ => .ok []
  | id :: rest, s =>
    match scanKey fault id s with
    | .error e => .error e
    | .ok xs =>
      match scanOnce fault rest s with
      | .error e => .error e
      | .ok ys => .ok (xs ++ ys)

/-- The long-poll loop of `get_messages_handler` (main.rs lines 303-423),
with time explicit in milliseconds.  Each iteration scans the store; found
messages are returned before the deadline is consulted; an empty scan at or
past the deadline returns the empty result.  Otherwise the request blocks on
`tokio::select!` between any notifier firing and
`sleep(min(check_interval, deadline - now))`; the oracle list `waits` gives,
per iteration, the delay after which a notification would arrive, so the
block lasts `min w (min interval (deadline - now))` milliseconds.  `none`
means the oracle ran out before the loop finished (the loop itself always
terminates because each full wait reaches the deadline). -/
def getLoop (fault : List Nat → Bool) (ids : List (List Nat)) (s : Store) (deadline : Int)
    (interval : Nat) : List Nat → Int → Option (Except AppError (List FoundMessage) × Int)
  | waits, now =>
    match scanOnce fault ids s with
    | .error e => some (.error e, now)
    | .ok found =>
      if found = [] then
        if deadline ≤ now then some (.ok [], now)
        else
          match waits with
          | [] => none
          | w :: rest =>
            getLoop fault ids s deadline interval rest
              (now + (min w (min interval (deadline - now).toNat) : Nat))
      else some (.ok found, now)

/-- `save_subscription_handler`: store the subscription blob under every
requested `message_id` in the "subscriptions" partition. -/
def save_subscription_handler (message_ids : List (List Nat)) (sub : PushSubscriptionInfo)
    (subs : List (List Nat × PushSubscriptionInfo)) : List (List Nat × PushSubscriptionInfo) :=
  message_ids.foldl (fun st k => insertKV k sub st) subs

/-- The database after the optional subscription-saving step at the start of
`get_messages_handler` (main.rs lines 260-271): an attached push subscription
is written into the "subscriptions" partition; the messages partition is
untouched. -/
def apply_push_subscription (payload : GetMessagesRequest) (db : DB) : DB :=
  match payload.push_subscription with
  | some sub =>
    { db with subscriptions := save_subscription_handler payload.message_ids sub db.subscriptions }
  | none => db

/-- `get_messages_handler`: deadline is `now` plus the requested timeout
(default 300000 ms); the check interval is 300000 ms; an attached push
subscription is saved into the "subscriptions" partition before the loop;
then the long-poll loop runs over the messages partition.  The result pairs
the response with the database after the request and the instant at which
the response is produced. -/
def get_messages_handler (payload : GetMessagesRequest) (fault : List Nat → Bool) (db : DB)
    (waits : List Nat) (now : Int) :
    Option (Except AppError (List FoundMessage) × DB × Int) :=
  let requested_timeout_ms := payload.timeout_ms.getD 300000
  let deadline : Int := now + requested_timeout_ms
  let db1 : DB := apply_push_subscription payload db
  (getLoop fault payload.message_ids db1.messages deadline 300000 waits now).map
    (fun rt => (rt.1, db1, rt.2))

/-! ## Association-list store lemmas -/

theorem lookupKV_removeKV_self {α : Type} (k : List Nat) (s : List (List Nat × α)) :
    lookupKV k (removeKV k s) = none := by
  induction s with
  | nil => rfl
  | cons e rest ih =>
    obtain ⟨k1, v1⟩ := e
    by_cases h : k1 = k
    · simpa [removeKV, h] using ih
    · simpa [removeKV, h, lookupKV] using ih

theorem lookupKV_removeKV_of_ne {α : Type} {k k' : List Nat} (h : k' ≠ k)
    (s : List (List Nat × α)) : lookupKV k' (removeKV k s) = lookupKV k' s := by
  induction s with
  | nil => rfl
  | cons e rest ih =>
    obtain ⟨k1, v1⟩ := e
    by_cases he : k1 = k
    · simpa [removeKV, he, lookupKV, Ne.symm h] using ih
    · by_cases he' : k1 = k'
      · simp [removeKV, he, lookupKV, he', h]
      · simpa [removeKV, he, lookupKV, he'] using ih

theorem removeKV_of_lookupKV_none {α : Type} {k : List Nat} {s : List (List Nat × α)}
    (h : lookupKV k s = none) : removeKV k s = s := by
  induction s with
  | nil => rfl
  | cons e rest ih =>
    obtain ⟨k1, v1⟩ := e
    by_cases he : k1 = k
    · simp [lookupKV, he] at h
    · simp [lookupKV, he] at h
      simp [removeKV, he, ih h]

theorem removeKV_removeKV {α : Type} (k : List Nat) (s : List (List Nat × α)) :
    removeKV k (removeKV k s) = removeKV k s :=
  removeKV_of_lookupKV_none (lookupKV_removeKV_self k s)

/-- The batch-deletion fold of `ack_messages_handler`, named for the lemmas. -/
def ackFold (acks : List AckMessageRequest) (s : Store) : Store :=
  acks.foldl (fun st a => removeKV (ackKeyBytes a.message_id a.timestamp) st) s

theorem ack_messages_handler_eq (acks : List AckMessageRequest) (s : Store) :
    ack_messages_handler acks s = (200, if acks.isEmpty then s else ackFold acks s) := by
  cases acks with
  | nil => rfl
  | cons a rest => rfl

theorem lookupKV_ackFold_none {k : List Nat} (acks : List AckMessageRequest) {s : Store}
    (h : lookupKV k s = none) : lookupKV k (ackFold acks s) = none := by
  induction acks generalizing s with
  | nil => exact h
  | cons a rest ih =>
    show lookupKV k (ackFold rest (removeKV (ackKeyBytes a.message_id a.timestamp) s)) = none
    apply ih
    by_cases hk : ackKeyBytes a.message_id a.timestamp = k
    · rw [hk]
      exact lookupKV_removeKV_self k s
    · rw [lookupKV_removeKV_of_ne (fun he => hk he.symm)]
      exact h

theorem lookupKV_ackFold_mem {a : AckMessageRequest} (acks : List AckMessageRequest) (s : Store)
    (ha : a ∈ acks) :
    lookupKV (ackKeyBytes a.message_id a.timestamp) (ackFold acks s) = none := by
  induction acks generalizing s with
  | nil => cases ha
  | cons b rest ih =>
    show lookupKV _ (ackFold rest (removeKV (ackKeyBytes b.message_id b.timestamp) s)) = none
    rcases List.mem_cons.mp ha with hab | harest
    · subst hab
      exact lookupKV_ackFold_none rest (lookupKV_removeKV_self _ s)
    · exact ih _ harest

theorem lookupKV_ackFold_of_ne {k' : List Nat} (acks : List AckMessageRequest) (s : Store)
    (h : ∀ a, a ∈ acks → k' ≠ ackKeyBytes a.message_id a.timestamp) :
    lookupKV k' (ackFold acks s) = lookupKV k' s := by
  induction acks generalizing s with
  | nil => rfl
  | cons a rest ih =>
    show lookupKV k' (ackFold rest (removeKV (ackKeyBytes a.message_id a.timestamp) s)) = _
    rw [ih _ (fun b hb => h b (List.mem_cons_of_mem a hb)),
      lookupKV_removeKV_of_ne (h a (List.mem_cons_self a rest))]

/-! ## Claims about Put and Ack -/

/-- A small concrete messages partition used by the witnesses: one record
stored by a Put to id `[107]` at millisecond 0, and one unrelated entry. -/
def demoStore : Store :=
  [(ackKeyBytes [107] 0, .record ⟨[97], 5⟩), ([8], .record ⟨[99], 7⟩)]

/-- C3: Ack with entry `(message_id, timestamp)` removes exactly the record
stored under the key `message_id` bytes ++ big-endian millisecond timestamp
and no other record; repeating the same Ack is a success-returning no-op, and
acking a never-existing entry succeeds with no store change. -/
theorem ack_exact_and_idempotent (id : List Nat) (ts : Int) (s : Store) :
    lookupKV (ackKeyBytes id ts) (ack_messages_handler [⟨id, ts⟩] s).2 = none
    ∧ (∀ k', k' ≠ ackKeyBytes id ts →
        lookupKV k' (ack_messages_handler [⟨id, ts⟩] s).2 = lookupKV k' s)
    ∧ ack_messages_handler [⟨id, ts⟩] ((ack_messages_handler [⟨id, ts⟩] s).2)
        = (200, (ack_messages_handler [⟨id, ts⟩] s).2)
    ∧ (lookupKV (ackKeyBytes id ts) s = none → ack_messages_handler [⟨id, ts⟩] s = (200, s)) := by
  have hs : (ack_messages_handler [⟨id, ts⟩] s).2 = removeKV (ackKeyBytes id ts) s := rfl
  refine ⟨?_, ?_, ?_, ?_⟩
  · rw [hs]
    exact lookupKV_removeKV_self _ s
  · intro k' hk'
    rw [hs]
    exact lookupKV_removeKV_of_ne hk' s
  · rw [ack_messages_handler_eq, hs]
    show (200, ackFold _ _) = _
    show (200, removeKV (ackKeyBytes id ts) (removeKV (ackKeyBytes id ts) s)) = _
    rw [removeKV_removeKV]
  · intro hnone
    rw [ack_messages_handler_eq]
    show (200, ackFold _ s) = _
    show (200, removeKV (ackKeyBytes id ts) s) = _
    rw [removeKV_of_lookupKV_none hnone]

theorem ack_exact_and_idempotent_witness :
    lookupKV (ackKeyBytes [107] 0) (ack_messages_handler [⟨[107], 0⟩] demoStore).2 = none
    ∧ lookupKV [8] (ack_messages_handler [⟨[107], 0⟩] demoStore).2 = lookupKV [8] demoStore
    ∧ ack_messages_handler [⟨[107], 0⟩] [] = (200, []) :=
  ⟨(ack_exact_and_idempotent [107] 0 demoStore).1,
   (ack_exact_and_idempotent [107] 0 demoStore).2.1 [8] (by decide),
   (ack_exact_and_idempotent [107] 0 []).2.2.2 rfl⟩

/-- C4: all deletions of one Ack batch are applied together on the success
path — every listed `(message_id, timestamp)` key is absent from the
resulting store and every unlisted key is untouched, with status 200 — and an
Ack with an empty list returns success without touching the store. -/
theorem ack_batch_atomic_and_empty_noop (acks : List AckMessageRequest) (s : Store) :
    ack_messages_handler [] s = (200, s)
    ∧ (ack_messages_handler acks s).1 = 200
    ∧ (∀ a, a ∈ acks →
        lookupKV (ackKeyBytes a.message_id a.timestamp) (ack_messages_handler acks s).2 = none)
    ∧ (∀ k', (∀ a, a ∈ acks → k' ≠ ackKeyBytes a.message_id a.timestamp) →
        lookupKV k' (ack_messages_handler acks s).2 = lookupKV k' s) := by
  refine ⟨rfl, ?_, ?_, ?_⟩
  · rw [ack_messages_handler_eq]
  · intro a ha
    cases acks with
    | nil => cases ha
    | cons b rest =>
      rw [ack_messages_handler_eq]
      exact lookupKV_ackFold_mem _ s ha
  · intro k' hk'
    cases acks with
    | nil => rfl
    | cons b rest =>
      rw [ack_messages_handler_eq]
      exact lookupKV_ackFold_of_ne _ s hk'

theorem ack_batch_atomic_and_empty_noop_witness :
    ack_messages_handler [] demoStore = (200, demoStore)
    ∧ lookupKV (ackKeyBytes [107] 0)
        (ack_messages_handler [⟨[107], 0⟩, ⟨[9], 3⟩] demoStore).2 = none
    ∧ lookupKV [8] (ack_messages_handler [⟨[107], 0⟩, ⟨[9], 3⟩] demoStore).2
        = lookupKV [8] demoStore :=
  ⟨(ack_batch_atomic_and_empty_noop [] demoStore).1,
   (ack_batch_atomic_and_empty_noop [⟨[107], 0⟩, ⟨[9], 3⟩] demoStore).2.2.1
     ⟨[107], 0⟩ (by decide),
   (ack_batch_atomic_and_empty_noop [⟨[107], 0⟩, ⟨[9], 3⟩] demoStore).2.2.2
     [8] (by decide)⟩

/-- C5: the storage-key uniqueness invariant fails on the code.  Two Puts to
the same `message_id` at distinct instants inside the same millisecond
(0 ns and 999999 ns) produce the identical storage key, and the second
`insert` silently overwrites the first undelivered record: after both Puts
the store holds only the second message. -/
theorem put_same_millisecond_overwrites :
    (0 : Int) ≠ 999999
    ∧ putKeyBytes [107] 0 = putKeyBytes [107] 999999
    ∧ putStore ⟨[107], [98]⟩ 999999 (putStore ⟨[107], [97]⟩ 0 [])
        = [(putKeyBytes [107] 0, .record ⟨[98], 999999⟩)]
    ∧ lookupKV (putKeyBytes [107] 0)
        (putStore ⟨[107], [98]⟩ 999999 (putStore ⟨[107], [97]⟩ 0 []))
        = some (.record ⟨[98], 999999⟩) := by
  refine ⟨by decide, by decide, by decide, by decide⟩

/-- C8: the key reconstructed by Ack from `(message_id, timestamp')` equals
the key Put stored under whenever the two timestamps share the same
millisecond value, so Put followed by Ack with the returned identity deletes
exactly that record and no other. -/
theorem put_ack_roundtrip (id msg : List Nat) (t t' : Int) (s : Store)
    (h : timestampMillis t = timestampMillis t') :
    ackKeyBytes id t' = putKeyBytes id t
    ∧ lookupKV (putKeyBytes id t)
        (ack_messages_handler [⟨id, t'⟩] (putStore ⟨id, msg⟩ t s)).2 = none
    ∧ (∀ k', k' ≠ putKeyBytes id t →
        lookupKV k' (ack_messages_handler [⟨id, t'⟩] (putStore ⟨id, msg⟩ t s)).2
          = lookupKV k' (putStore ⟨id, msg⟩ t s)) := by
  have hkey : ackKeyBytes id t' = putKeyBytes id t := by
    unfold ackKeyBytes putKeyBytes
    rw [h]
  have hs : (ack_messages_handler [⟨id, t'⟩] (putStore ⟨id, msg⟩ t s)).2
      = removeKV (putKeyBytes id t) (putStore ⟨id, msg⟩ t s) := by
    show removeKV (ackKeyBytes id t') _ = _
    rw [hkey]
  refine ⟨hkey, ?_, ?_⟩
  · rw [hs]
    exact lookupKV_removeKV_self _ _
  · intro k' hk'
    rw [hs]
    exact lookupKV_removeKV_of_ne hk' _

theorem put_ack_roundtrip_witness :
    ackKeyBytes [107] 999999 = putKeyBytes [107] 0
    ∧ lookupKV (putKeyBytes [107] 0)
        (ack_messages_handler [⟨[107], 999999⟩] (putStore ⟨[107], [97]⟩ 0 [])).2 = none
    ∧ lookupKV [8] (ack_messages_handler [⟨[107], 999999⟩] (putStore ⟨[107], [97]⟩ 0 [])).2
        = lookupKV [8] (putStore ⟨[107], [97]⟩ 0 []) :=
  ⟨(put_ack_roundtrip [107] [97] 0 999999 [] (by decide)).1,
   (put_ack_roundtrip [107] [97] 0 999999 [] (by decide)).2.1,
   (put_ack_roundtrip [107] [97] 0 999999 [] (by decide)).2.2 [8] (by decide)⟩

/-- C9: a Put whose `message_id` exceeds 100 bytes or whose `message`
exceeds 2048 bytes returns a `PayloadTooLarge` error before any storage
access: the messages partition is unchanged and no waiter is notified. -/
theorem put_size_guard (p : PutMessageRequest) (t : Int) (s : Store)
    (h : 100 < p.message_id.length ∨ 2048 < p.message.length) :
    (∃ e, put_message_handler p t s = .error (.PayloadTooLarge e))
    ∧ putStore p t s = s ∧ putNotify p t s = none := by
  by_cases h1 : 100 < p.message_id.length
  · refine ⟨⟨.messageIdField, ?_⟩, ?_, ?_⟩ <;>
      simp [put_message_handler, putStore, putNotify, h1]
  · have h2 : 2048 < p.message.length := h.resolve_left h1
    refine ⟨⟨.messageField, ?_⟩, ?_, ?_⟩ <;>
      simp [put_message_handler, putStore, putNotify, h1, h2]

theorem put_size_guard_witness :
    (∃ e, put_message_handler ⟨List.replicate 101 0, [97]⟩ 0 demoStore
        = .error (.PayloadTooLarge e))
    ∧ putStore ⟨List.replicate 101 0, [97]⟩ 0 demoStore = demoStore
    ∧ putNotify ⟨List.replicate 101 0, [97]⟩ 0 demoStore = none :=
  put_size_guard ⟨List.replicate 101 0, [97]⟩ 0 demoStore (Or.inl (by decide))

/-! ## Scan and long-poll lemmas -/

theorem isPrefixOf_append_self (K rest : List Nat) : K.isPrefixOf (K ++ rest) = true := by
  induction K with
  | nil => simp
  | cons a as ih => simp [List.isPrefixOf, ih]

theorem isPrefixOf_append_of_isPrefixOf {K K' : List Nat} (h : K.isPrefixOf K' = true)
    (rest : List Nat) : K.isPrefixOf (K' ++ rest) = true := by
  induction K generalizing K' with
  | nil => simp
  | cons a as ih =>
    cases K' with
    | nil => simp [List.isPrefixOf] at h
    | cons b bs =>
      simp only [List.isPrefixOf, Bool.and_eq_true, beq_iff_eq] at h
      simpa [List.isPrefixOf, h.1] using ih h.2

theorem scanKey_ok_mem {fault : List Nat → Bool} {id k : List Nat} {r : MessageRecord}
    {s : Store} {res : List FoundMessage} (h : scanKey fault id s = .ok res)
    (hm : (k, StoredVal.record r) ∈ s) (hp : id.isPrefixOf k = true) :
    ({ message_id := id, message := r.message, timestamp := r.timestamp } : FoundMessage) ∈ res := by
  induction s generalizing res with
  | nil => cases hm
  | cons e rest ih =>
    obtain ⟨k1, v1⟩ := e
    rcases List.mem_cons.mp hm with hhd | htl
    · injection hhd with hk1 hv1
      subst hk1
      subst hv1
      simp only [scanKey, hp, if_true] at h
      cases hf : fault k with
      | true => rw [hf] at h; cases h
      | false =>
        rw [hf] at h
        simp only [Bool.false_eq_true, if_false] at h
        rcases hrest : scanKey fault id rest with e' | ys <;> rw [hrest] at h
        · cases h
        · injection h with h'
          rw [← h']
          exact List.mem_cons_self _ _
    · simp only [scanKey] at h
      by_cases hpre : id.isPrefixOf k1 = true
      · rw [if_pos hpre] at h
        cases hf : fault k1 with
        | true => rw [hf] at h; cases h
        | false =>
          rw [hf] at h
          simp only [Bool.false_eq_true, if_false] at h
          cases v1 with
          | record r1 =>
            rcases hrest : scanKey fault id rest with e' | ys <;> rw [hrest] at h
            · cases h
            · injection h with h'
              rw [← h']
              exact List.mem_cons_of_mem _ (ih hrest htl)
          | corrupt b => cases h
      · rw [if_neg hpre] at h
        exact ih h htl

theorem scanKey_error_of_bad {fault : List Nat → Bool} {id k : List Nat} {v : StoredVal}
    {s : Store} (hm : (k, v) ∈ s) (hp : id.isPrefixOf k = true)
    (hbad : fault k = true ∨ ∃ b, v = .corrupt b) :
    ∃ e, scanKey fault id s = .error e := by
  induction s with
  | nil => cases hm
  | cons e rest ih =>
    obtain ⟨k1, v1⟩ := e
    simp only [scanKey]
    rcases List.mem_cons.mp hm with hhd | htl
    · injection hhd with hk1 hv1
      subst hk1
      subst hv1
      rw [if_pos hp]
      rcases hbad with hf | ⟨b, hb⟩
      · exact ⟨.Fjall, by simp [hf]⟩
      · subst hb
        cases hf : fault k with
        | true => exact ⟨.Fjall, by simp [hf]⟩
        | false => exact ⟨.SerdeJson, by simp [hf]⟩
    · by_cases hpre : id.isPrefixOf k1 = true
      · rw [if_pos hpre]
        cases hf : fault k1 with
        | true => exact ⟨.Fjall, by simp [hf]⟩
        | false =>
          cases v1 with
          | record r1 =>
            obtain ⟨e, he⟩ := ih htl
            exact ⟨e, by simp [hf, he]⟩
          | corrupt b => exact ⟨.SerdeJson, by simp [hf]⟩
      · rw [if_neg hpre]
        exact ih htl

theorem scanOnce_ok_mem {fault : List Nat → Bool} {ids : List (List Nat)} {id k : List Nat}
    {r : MessageRecord} {s : Store} {res : List FoundMessage}
    (h : scanOnce fault ids s = .ok res) (hid : id ∈ ids)
    (hm : (k, StoredVal.record r) ∈ s) (hp : id.isPrefixOf k = true) :
    ({ message_id := id, message := r.message, timestamp := r.timestamp } : FoundMessage) ∈ res := by
  induction ids generalizing res with
  | nil => cases hid
  | cons i irest ih =>
    simp only [scanOnce] at h
    rcases hk : scanKey fault i s with e' | xs <;> rw [hk] at h
    · cases h
    · rcases hrest : scanOnce fault irest s with e' | ys <;> rw [hrest] at h
      · cases h
      · injection h with h'
        rw [← h']
        rcases List.mem_cons.mp hid with hii | hitl
        · subst hii
          exact List.mem_append_left ys (scanKey_ok_mem hk hm hp)
        · exact List.mem_append_right xs (ih hrest hitl)

theorem scanOnce_error_of_bad {fault : List Nat → Bool} {ids : List (List Nat)} {id k : List Nat}
    {v : StoredVal} {s : Store} (hid : id ∈ ids) (hm : (k, v) ∈ s)
    (hp : id.isPrefixOf k = true) (hbad : fault k = true ∨ ∃ b, v = .corrupt b) :
    ∃ e, scanOnce fault ids s = .error e := by
  induction ids with
  | nil => cases hid
  | cons i irest ih =>
    simp only [scanOnce]
    rcases List.mem_cons.mp hid with hii | hitl
    · subst hii
      obtain ⟨e, he⟩ := scanKey_error_of_bad hm hp hbad
      rw [he]
      exact ⟨e, rfl⟩
    · rcases hk : scanKey fault i s with e' | xs
      · exact ⟨e', rfl⟩
      · obtain ⟨e, he⟩ := ih hitl
        rw [he]
        exact ⟨e, rfl⟩

theorem getLoop_ok_scan {fault : List Nat → Bool} {ids : List (List Nat)} {s : Store}
    {dl : Int} {iv : Nat} {waits : List Nat} {now t : Int} {res : List FoundMessage}
    (h : getLoop fault ids s dl iv waits now = some (.ok res, t)) :
    scanOnce fault ids s = .ok res := by
  induction waits generalizing now with
  | nil =>
    simp only [getLoop] at h
    split at h
    · simp at h
    · rename_i found hscan
      by_cases hfound : found = []
      · rw [if_pos hfound] at h
        by_cases hdl : dl ≤ now
        · rw [if_pos hdl] at h
          simp at h
          rw [hscan, hfound, h.1]
        · rw [if_neg hdl] at h
          cases h
      · rw [if_neg hfound] at h
        simp at h
        rw [hscan, h.1]
  | cons w wrest ih =>
    simp only [getLoop] at h
    split at h
    · simp at h
    · rename_i found hscan
      by_cases hfound : found = []
      · rw [if_pos hfound] at h
        by_cases hdl : dl ≤ now
        · rw [if_pos hdl] at h
          simp at h
          rw [hscan, hfound, h.1]
        · rw [if_neg hdl] at h
          exact ih h
      · rw [if_neg hfound] at h
        simp at h
        rw [hscan, h.1]

theorem apply_push_subscription_messages (payload : GetMessagesRequest) (db : DB) :
    (apply_push_subscription payload db).messages = db.messages := by
  cases hp : payload.push_subscription <;> simp [apply_push_subscription, hp]

theorem getLoop_error_scan {fault : List Nat → Bool} {ids : List (List Nat)} {s : Store}
    {e : AppError} (hscan : scanOnce fault ids s = .error e) (dl : Int) (iv : Nat)
    (waits : List Nat) (now : Int) :
    getLoop fault ids s dl iv waits now = some (.error e, now) := by
  cases waits <;> simp [getLoop, hscan]

theorem getLoop_deadline_passed {fault : List Nat → Bool} (ids : List (List Nat)) (s : Store)
    {dl : Int} (iv : Nat) (waits : List Nat) {now : Int} (hdl : dl ≤ now) :
    getLoop fault ids s dl iv waits now = some (scanOnce fault ids s, now) := by
  cases waits with
  | nil =>
    simp only [getLoop]
    split
    · rename_i e hscan
      rw [hscan]
    · rename_i found hscan
      rw [hscan]
      by_cases hfound : found = []
      · rw [if_pos hfound, if_pos hdl, hfound]
      · rw [if_neg hfound]
  | cons w wrest =>
    simp only [getLoop]
    split
    · rename_i e hscan
      rw [hscan]
    · rename_i found hscan
      rw [hscan]
      by_cases hfound : found = []
      · rw [if_pos hfound, if_pos hdl, hfound]
      · rw [if_neg hfound]

theorem getLoop_empty_result {fault : List Nat → Bool} {ids : List (List Nat)} {s : Store}
    {dl : Int} {iv : Nat} (hscan : scanOnce fault ids s = .ok [])
    {waits : List Nat} {now t : Int} {r : Except AppError (List FoundMessage)}
    (h : getLoop fault ids s dl iv waits now = some (r, t)) :
    r = .ok [] ∧ t = max now dl := by
  induction waits generalizing now with
  | nil =>
    simp only [getLoop] at h
    split at h
    · rename_i e hsc
      rw [hscan] at hsc
      exact Except.noConfusion hsc
    · rename_i found hsc
      rw [hscan] at hsc
      injection hsc with hfound
      rw [if_pos hfound.symm] at h
      by_cases hdl : dl ≤ now
      · rw [if_pos hdl] at h
        simp at h
        exact ⟨h.1.symm, by rw [← h.2, max_eq_left hdl]⟩
      · rw [if_neg hdl] at h
        cases h
  | cons w wrest ih =>
    simp only [getLoop] at h
    split at h
    · rename_i e hsc
      rw [hscan] at hsc
      exact Except.noConfusion hsc
    · rename_i found hsc
      rw [hscan] at hsc
      injection hsc with hfound
      rw [if_pos hfound.symm] at h
      by_cases hdl : dl ≤ now
      · rw [if_pos hdl] at h
        simp at h
        exact ⟨h.1.symm, by rw [← h.2, max_eq_left hdl]⟩
      · rw [if_neg hdl] at h
        obtain ⟨hr, ht⟩ := ih h
        have hlt : now < dl := not_le.mp hdl
        have h1 : min w (min iv (dl - now).toNat) ≤ (dl - now).toNat :=
          le_trans (Nat.min_le_right _ _) (Nat.min_le_right _ _)
        have h2 : now + (min w (min iv (dl - now).toNat) : Nat) ≤ dl := by omega
        refine ⟨hr, ?_⟩
        rw [ht, max_eq_right h2, max_eq_right hlt.le]

/-! ## Claims about Get -/

/-- Inputs shared by the Get witnesses: a request for id `[107]` with an
already-elapsed deadline, a fault-free engine, and a store holding one record
put to `[107]` at millisecond 0. -/
def demoGetPayload : GetMessagesRequest := ⟨[[107]], some 0, none⟩

def noFault : List Nat → Bool := fun _ => false

def demoDB : DB := ⟨[(putKeyBytes [107] 0, .record ⟨[97], 5⟩)], []⟩

/-- C1 (no loss): whenever a Get request returns a result set, that set
contains, for every requested `message_id` K, every record stored under a
key that Put built from K — whatever else the store holds. -/
theorem get_no_loss (p : GetMessagesRequest) (fault : List Nat → Bool) (db : DB)
    (waits : List Nat) (now : Int) (K : List Nat) (m : Int) (r : MessageRecord)
    {results : List FoundMessage} {db' : DB} {t : Int}
    (h : get_messages_handler p fault db waits now = some (.ok results, db', t))
    (hK : K ∈ p.message_ids) (hm : (putKeyBytes K m, StoredVal.record r) ∈ db.messages) :
    ({ message_id := K, message := r.message, timestamp := r.timestamp } : FoundMessage)
      ∈ results := by
  simp only [get_messages_handler] at h
  rcases Option.map_eq_some'.mp h with ⟨⟨r0, t0⟩, hg, hf⟩
  simp only [Prod.mk.injEq] at hf
  rw [hf.1, hf.2.2] at hg
  have hscan := getLoop_ok_scan hg
  rw [apply_push_subscription_messages] at hscan
  exact scanOnce_ok_mem hscan hK hm (isPrefixOf_append_self K _)

theorem get_no_loss_witness :
    get_messages_handler demoGetPayload noFault demoDB [] 0
      = some (.ok [{ message_id := [107], message := [97], timestamp := 5 }], demoDB, 0)
    ∧ ({ message_id := [107], message := [97], timestamp := 5 } : FoundMessage)
      ∈ [({ message_id := [107], message := [97], timestamp := 5 } : FoundMessage)] :=
  ⟨rfl,
   get_no_loss demoGetPayload noFault demoDB [] 0 [107] 0 ⟨[97], 5⟩ rfl
     (by decide) (by decide)⟩

/-- C2 (no deletion on read): a Get request never changes the messages
partition, so a subsequent Get over the same ids scans the very same set of
messages. -/
theorem get_no_deletion_on_read (p : GetMessagesRequest) (fault : List Nat → Bool) (db : DB)
    (waits : List Nat) (now : Int) {resp : Except AppError (List FoundMessage)} {db' : DB}
    {t : Int} (h : get_messages_handler p fault db waits now = some (resp, db', t)) :
    db'.messages = db.messages
    ∧ scanOnce fault p.message_ids db'.messages = scanOnce fault p.message_ids db.messages := by
  simp only [get_messages_handler] at h
  rcases Option.map_eq_some'.mp h with ⟨⟨r0, t0⟩, hg, hf⟩
  simp only [Prod.mk.injEq] at hf
  have hdb : db' = apply_push_subscription p db := hf.2.1.symm
  rw [hdb, apply_push_subscription_messages]
  exact ⟨rfl, rfl⟩

theorem get_no_deletion_on_read_witness :
    demoDB.messages = demoDB.messages
    ∧ scanOnce noFault demoGetPayload.message_ids demoDB.messages
        = scanOnce noFault demoGetPayload.message_ids demoDB.messages :=
  get_no_deletion_on_read demoGetPayload noFault demoDB [] 0
    (rfl : get_messages_handler demoGetPayload noFault demoDB [] 0
      = some (.ok [{ message_id := [107], message := [97], timestamp := 5 }], demoDB, 0))

/-- C6 (timeout correctness with at-least-one-poll): when no message for the
requested ids is ever in the store, a Get returns the empty result and does
so exactly at `max now deadline` — never before the deadline, and (in model
time, where a scan is instantaneous) never after it, each blocking wait being
clamped to `min (poll interval) (deadline - now)`; and when the deadline has
already passed on entry, the request still performs one full scan and
returns its outcome immediately, so already-stored messages are returned. -/
theorem get_timeout_correct (fault : List Nat → Bool) (ids : List (List Nat)) (s : Store)
    (dl : Int) (iv : Nat) (waits : List Nat) (now : Int) :
    (scanOnce fault ids s = .ok [] →
      ∀ r t, getLoop fault ids s dl iv waits now = some (r, t) → r = .ok [] ∧ t = max now dl)
    ∧ (dl ≤ now → getLoop fault ids s dl iv waits now = some (scanOnce fault ids s, now)) :=
  ⟨fun hscan _ _ h => getLoop_empty_result hscan h,
   fun hdl => getLoop_deadline_passed ids s iv waits hdl⟩

theorem get_timeout_correct_witness :
    ((Except.ok [] : Except AppError (List FoundMessage)) = .ok []
      ∧ (10 : Int) = max 0 10)
    ∧ getLoop noFault [[107]] [] 10 7 [] 20 = some (scanOnce noFault [[107]] [], 20) :=
  ⟨(get_timeout_correct noFault [[107]] [] 10 7 [20, 5] 0).1 rfl (.ok []) 10 rfl,
   (get_timeout_correct noFault [[107]] [] 10 7 [] 20).2 (by decide)⟩

/-- C7 (whole-request failure): if some stored record under a requested
prefix fails to deserialize, or its read yields a storage error, the Get
request returns an error immediately — no partial result set reaches the
caller. -/
theorem get_whole_request_failure (p : GetMessagesRequest) (fault : List Nat → Bool) (db : DB)
    (waits : List Nat) (now : Int) (K k : List Nat) (v : StoredVal)
    (hK : K ∈ p.message_ids) (hm : (k, v) ∈ db.messages) (hp : K.isPrefixOf k = true)
    (hbad : fault k = true ∨ ∃ b, v = .corrupt b) :
    ∃ e db', get_messages_handler p fault db waits now = some (.error e, db', now) := by
  have hm' : (k, v) ∈ (apply_push_subscription p db).messages := by
    rw [apply_push_subscription_messages]
    exact hm
  obtain ⟨e, he⟩ := scanOnce_error_of_bad hK hm' hp hbad
  refine ⟨e, apply_push_subscription p db, ?_⟩
  simp only [get_messages_handler]
  rw [getLoop_error_scan he]
  rfl

/-- A messages partition holding one corrupt blob under a key with prefix
`[107]`. -/
def corruptDB : DB := ⟨[([107, 1], .corrupt [255])], []⟩

theorem get_whole_request_failure_witness :
    ∃ e db', get_messages_handler demoGetPayload noFault corruptDB [] 0
      = some (.error e, db', 0) :=
  get_whole_request_failure demoGetPayload noFault corruptDB [] 0 [107] [107, 1]
    (.corrupt [255]) (by decide) (by decide) (by decide) (Or.inr ⟨[255], rfl⟩)

/-- C10 (prefix-collision leakage): the scan uses the raw `message_id` bytes
as key prefix with no terminator, so a Get for K also returns — labeled with
K — every record that was Put under a different, longer id of which K is a
proper byte prefix. -/
theorem get_prefix_collision (p : GetMessagesRequest) (fault : List Nat → Bool) (db : DB)
    (waits : List Nat) (now : Int) (K Kother : List Nat) (m : Int) (r : MessageRecord)
    {results : List FoundMessage} {db' : DB} {t : Int}
    (h : get_messages_handler p fault db waits now = some (.ok results, db', t))
    (hK : K ∈ p.message_ids) (_hne : K ≠ Kother) (hpre : K.isPrefixOf Kother = true)
    (hm : (putKeyBytes Kother m, StoredVal.record r) ∈ db.messages) :
    ({ message_id := K, message := r.message, timestamp := r.timestamp } : FoundMessage)
      ∈ results := by
  simp only [get_messages_handler] at h
  rcases Option.map_eq_some'.mp h with ⟨⟨r0, t0⟩, hg, hf⟩
  simp only [Prod.mk.injEq] at hf
  rw [hf.1, hf.2.2] at hg
  have hscan := getLoop_ok_scan hg
  rw [apply_push_subscription_messages] at hscan
  exact scanOnce_ok_mem hscan hK hm (isPrefixOf_append_of_isPrefixOf hpre _)

/-- A messages partition holding one record Put under id `[107, 108]`, of
which the requested id `[107]` is a proper prefix. -/
def longIdDB : DB := ⟨[(putKeyBytes [107, 108] 0, .record ⟨[98], 6⟩)], []⟩

theorem get_prefix_collision_witness :
    get_messages_handler demoGetPayload noFault longIdDB [] 0
      = some (.ok [{ message_id := [107], message := [98], timestamp := 6 }], longIdDB, 0)
    ∧ ({ message_id := [107], message := [98], timestamp := 6 } : FoundMessage)
      ∈ [({ message_id := [107], message := [98], timestamp := 6 } : FoundMessage)] :=
  ⟨rfl,
   get_prefix_collision demoGetPayload noFault longIdDB [] 0 [107] [107, 108] 0 ⟨[98], 6⟩
     rfl (by decide) (by decide) (by decide) (by decide)⟩

end KeyWhisper
